import Mathlib

/-!
Verification of the wecompliance report generator (`src/generate.py`).

The development shallowly embeds the core functions of the generator:
`normalize_country_name`, `normalize_region`, `flag_to_iso2`, `infer_region`,
`classify_region`, `render_status`, `render_link` and the grouping stage of
`build_body_compliance`.  Python strings are modelled as Lean `String`
(`List Char` underneath); Python dictionaries that the functions receive are
modelled as lookup functions `String → Option String`; the static tables are
modelled as association lists in their source insertion order.
-/

namespace Wecompliance

/-! ### Python string primitives -/

/-- The whitespace set used by Python's `str.strip()` / `str.isspace()` and by
the regex class `\s` in Unicode mode: ASCII whitespace, the C0 separators
`\x1c`–`\x1f`, NEL, NBSP and the Unicode space characters. -/
def pyIsSpace (c : Char) : Bool :=
  c.toNat = 0x9 || c.toNat = 0xA || c.toNat = 0xB || c.toNat = 0xC ||
  c.toNat = 0xD || c.toNat = 0x1C || c.toNat = 0x1D || c.toNat = 0x1E ||
  c.toNat = 0x1F || c.toNat = 0x20 || c.toNat = 0x85 || c.toNat = 0xA0 ||
  c.toNat = 0x1680 || (0x2000 ≤ c.toNat && c.toNat ≤ 0x200A) ||
  c.toNat = 0x2028 || c.toNat = 0x2029 || c.toNat = 0x202F ||
  c.toNat = 0x205F || c.toNat = 0x3000

/-- `str.strip()` on the character list. -/
def pyStripL (l : List Char) : List Char :=
  ((l.dropWhile pyIsSpace).reverse.dropWhile pyIsSpace).reverse

/-- Python `str.strip()`. -/
def pyStrip (s : String) : String :=
  String.mk (pyStripL s.data)

/-- A string is "blank" when `s.strip()` is falsy, i.e. every character is
whitespace. -/
def isBlankL (l : List Char) : Bool :=
  l.all pyIsSpace

/-- ASCII lower-casing, as `str.lower()` acts on the ASCII letters that the
lower-cased strings are compared against. -/
def pyLower (s : String) : String :=
  String.mk (s.data.map Char.toLower)

/-- ASCII upper-casing, as `str.upper()` acts on the ASCII letters relevant to
the `"USP"` membership test. -/
def pyUpper (s : String) : String :=
  String.mk (s.data.map Char.toUpper)

/-- Does `hay` start with `needle`? -/
def startsWithSeq : List Char → List Char → Bool
  | _, [] => true
  | [], _ :: _ => false
  | a :: as, b :: bs => a == b && startsWithSeq as bs

/-- Python's substring containment `needle in hay` on character lists. -/
def containsSub : List Char → List Char → Bool
  | [], needle => needle.isEmpty
  | a :: t, needle => startsWithSeq (a :: t) needle || containsSub t needle

/-- Python's substring containment `needle in hay` on strings. -/
def strContains (hay needle : String) : Bool :=
  containsSub hay.data needle.data

/-- `html.escape(s, quote=False)`: one character of the replacement chain for
`&`, `<`, `>`. -/
def escapeChar (c : Char) : List Char :=
  if c = '&' then "&amp;".data
  else if c = '<' then "&lt;".data
  else if c = '>' then "&gt;".data
  else [c]

/-- `html.escape(s, quote=False)` on a character list. -/
def escapeL (l : List Char) : List Char :=
  l.flatMap escapeChar

/-- The generator's `escape` helper (`src/generate.py:138`): `None` becomes the
empty string, otherwise `html.escape(str(s), quote=False)`. -/
def escape (s : Option String) : String :=
  match s with
  | none => ""
  | some s => String.mk (escapeL s.data)

/-- `html.escape(s, quote=True)`: additionally escapes `"` and `'`. -/
def escapeAttrChar (c : Char) : List Char :=
  if c = '&' then "&amp;".data
  else if c = '<' then "&lt;".data
  else if c = '>' then "&gt;".data
  else if c = '"' then "&quot;".data
  else if c = '\'' then "&#x27;".data
  else [c]

/-- `html.escape(s, quote=True)` on strings. -/
def escapeAttr (s : String) : String :=
  String.mk (s.data.flatMap escapeAttrChar)

/-! ### Region tables and classification (`src/generate.py:33-294`) -/

/-- Display order of the five canonical regions
(`src/generate.py:33`): 亚洲 (Asia), 美洲 (Americas), 欧洲 (Europe),
大洋洲 (Oceania), 其他 (Other). -/
def REGION_ORDER : List String :=
  ["亚洲", "美洲", "欧洲", "大洋洲", "其他"]

/-- The static country → region override table `COUNTRY_REGION_MAP`
(`src/generate.py:37-55`), as an association list in dict insertion order. -/
def COUNTRY_REGION_MAP : List (String × String) :=
  [("中国", "亚洲"), ("泰国", "亚洲"), ("印尼", "亚洲"), ("印度尼西亚", "亚洲"),
   ("马来西亚", "亚洲"), ("新加坡", "亚洲"), ("菲律宾", "亚洲"), ("越南", "亚洲"),
   ("柬埔寨", "亚洲"), ("伊朗", "亚洲"), ("日本", "亚洲"), ("韩国", "亚洲"),
   ("美国", "美洲"), ("加拿大", "美洲"), ("巴西", "美洲"), ("智利", "美洲"),
   ("欧盟", "欧洲"), ("EU", "欧洲"), ("European Union", "欧洲"),
   ("英国", "欧洲"), ("UK", "欧洲"), ("United Kingdom", "欧洲"),
   ("俄罗斯", "欧洲"), ("Russia", "欧洲"), ("Russian Federation", "欧洲"),
   ("土耳其", "欧洲"), ("Turkey", "欧洲"),
   ("埃及", "欧洲"), ("Egypt", "欧洲"),
   ("澳洲", "大洋洲"), ("澳大利亚", "大洋洲"), ("Australia", "大洋洲"),
   ("新西兰", "大洋洲"), ("New Zealand", "大洋洲"),
   ("南非", "其他"), ("South Africa", "其他"), ("USP", "其他")]

/-- Is `c` a regional-indicator symbol (U+1F1E6–U+1F1FF)? -/
def isRegionalIndicator (c : Char) : Bool :=
  0x1F1E6 ≤ c.toNat && c.toNat ≤ 0x1F1FF

/-- The scan behind `removeFlagPairs`: `pending` holds a regional-indicator
symbol seen at the previous position and not yet emitted. -/
def removeFlagPairsAux : Option Char → List Char → List Char
  | none, [] => []
  | some p, [] => [p]
  | none, c :: rest =>
    if isRegionalIndicator c then removeFlagPairsAux (some c) rest
    else c :: removeFlagPairsAux none rest
  | some p, c :: rest =>
    if isRegionalIndicator c then removeFlagPairsAux none rest
    else p :: c :: removeFlagPairsAux none rest

/-- `re.sub(r'[🇦-🇿]{2}', '', s)`: remove non-overlapping pairs of
regional-indicator symbols, scanning left to right. -/
def removeFlagPairs (l : List Char) : List Char :=
  removeFlagPairsAux none l

/-- Leading punctuation removed by `lstrip('•·-–—→↗')`. -/
def isBulletChar (c : Char) : Bool :=
  c = '•' || c = '·' || c = '-' || c = '–' || c = '—' || c = '→' || c = '↗'

/-- `normalize_country_name` (`src/generate.py:57-66`): strip, remove
regional-indicator pairs, remove every character of the supplementary planes
(`re.sub(r'[𐀀-􏿿]', '', s)`, i.e. U+10000–U+10FFFF), strip, remove leading
bullets/arrows, strip. -/
def normalize_country_name (name : String) : String :=
  let s := pyStripL name.data
  let s := removeFlagPairs s
  let s := s.filter (fun c => c.toNat < 0x10000)
  let s := (pyStripL s).dropWhile isBulletChar
  String.mk (pyStripL s)

/-- `normalize_region` (`src/generate.py:158-171`): pass the four canonical
Chinese labels through, map recognized English names, default 其他. -/
def normalize_region (r : String) : String :=
  if pyStrip r = "亚洲" || pyStrip r = "美洲" || pyStrip r = "欧洲" ||
     pyStrip r = "大洋洲" then pyStrip r
  else if pyLower (pyStrip r) = "asia" then "亚洲"
  else if pyLower (pyStrip r) = "americas" || pyLower (pyStrip r) = "america" ||
          pyLower (pyStrip r) = "north america" ||
          pyLower (pyStrip r) = "south america" ||
          pyLower (pyStrip r) = "latin america" then "美洲"
  else if pyLower (pyStrip r) = "europe" || pyLower (pyStrip r) = "eu" then "欧洲"
  else if pyLower (pyStrip r) = "oceania" then "大洋洲"
  else "其他"

/-- `flag_to_iso2` (`src/generate.py:174-186`): decode the first two
regional-indicator symbols to an ISO2 code, else the empty string. -/
def flag_to_iso2 (flag : String) : String :=
  match flag.data with
  | a :: b :: _ =>
    if isRegionalIndicator a && isRegionalIndicator b then
      String.mk [Char.ofNat (a.toNat - 0x1F1E6 + 'A'.toNat),
                 Char.ofNat (b.toNat - 0x1F1E6 + 'A'.toNat)]
    else ""
  | _ => ""

/-- The ISO2 → region table inside `infer_region` (`src/generate.py:203-215`). -/
def iso_region : List (String × String) :=
  [("CN", "亚洲"), ("JP", "亚洲"), ("KR", "亚洲"), ("TW", "亚洲"), ("HK", "亚洲"),
   ("MO", "亚洲"), ("SG", "亚洲"), ("MY", "亚洲"), ("TH", "亚洲"), ("VN", "亚洲"),
   ("ID", "亚洲"), ("IN", "亚洲"), ("AE", "亚洲"), ("SA", "亚洲"), ("IL", "亚洲"),
   ("US", "美洲"), ("CA", "美洲"), ("MX", "美洲"), ("BR", "美洲"), ("AR", "美洲"),
   ("CL", "美洲"), ("PE", "美洲"), ("CO", "美洲"),
   ("GB", "欧洲"), ("FR", "欧洲"), ("DE", "欧洲"), ("IT", "欧洲"), ("ES", "欧洲"),
   ("NL", "欧洲"), ("BE", "欧洲"), ("SE", "欧洲"), ("NO", "欧洲"), ("CH", "欧洲"),
   ("EU", "欧洲"),
   ("AU", "大洋洲"), ("NZ", "大洋洲")]

/-- First-match association-list lookup, the model of a Python dict access
(keys of the embedded tables are pairwise distinct). -/
def assocLookup (m : List (String × String)) (k : String) : Option String :=
  match m.find? (fun kv => kv.1 == k) with
  | some kv => some kv.2
  | none => none

def europeKeysZh : List String :=
  ["欧盟", "欧洲", "英国", "法国", "德国", "意大利", "西班牙", "荷兰", "瑞士",
   "瑞典", "挪威", "比利时", "爱尔兰", "奥地利", "丹麦", "芬兰", "葡萄牙", "波兰",
   "捷克", "匈牙利", "罗马尼亚", "希腊"]

def europeKeysUpper : List String := ["EU", "UK", "GB"]

def europeKeysLower : List String :=
  ["european union", "europe", "united kingdom", "england", "scotland", "wales",
   "france", "germany", "italy", "spain", "netherlands", "switzerland", "sweden",
   "norway", "belgium", "ireland", "austria", "denmark", "finland", "portugal",
   "poland", "czech", "hungary", "romania", "greece"]

def americasKeysZh : List String :=
  ["美国", "加拿大", "墨西哥", "巴西", "阿根廷", "智利", "秘鲁", "哥伦比亚"]

def americasKeysLower : List String :=
  ["united states", "u.s.", "usa", "america", "canada", "mexico", "brazil",
   "argentina", "chile", "peru", "colombia"]

def oceaniaKeysZh : List String := ["澳大利亚", "新西兰"]

def oceaniaKeysLower : List String := ["australia", "new zealand", "nz"]

def asiaKeysZh : List String :=
  ["中国", "日本", "韩国", "台湾", "香港", "澳门", "新加坡", "马来西亚", "泰国",
   "越南", "印度", "印尼", "阿联酋", "沙特", "以色列"]

def asiaKeysLower : List String :=
  ["china", "japan", "korea", "south korea", "taiwan", "hong kong", "macau",
   "macao", "singapore", "malaysia", "thailand", "vietnam", "india", "indonesia",
   "uae", "united arab emirates", "saudi", "israel"]

/-- `any(k in t for k in keys)`. -/
def anyKeyIn (keys : List String) (t : String) : Bool :=
  keys.any (fun k => strContains t k)

/-- `infer_region` (`src/generate.py:189-266`): the heuristic inference from
the country text itself — USP check, flag decoding with the ISO2 table, then
keyword matching in the fixed priority Europe, Americas, Oceania, Asia.
This function is defined in the source but is never called by
`classify_region`. -/
def infer_region (country_raw : String) : String :=
  if country_raw = "" then "其他"
  else
    let s := pyStrip country_raw
    if strContains (pyUpper s) "USP" then "其他"
    else
      let iso2 :=
        if s.data.length ≥ 2 then flag_to_iso2 (String.mk (s.data.take 2)) else ""
      match assocLookup iso_region iso2 with
      | some reg => reg
      | none =>
        let t := if iso2 ≠ "" then pyStrip (String.mk (s.data.drop 2)) else s
        let tU := pyUpper t
        let tL := pyLower t
        if anyKeyIn europeKeysZh t then "欧洲"
        else if anyKeyIn europeKeysUpper tU then "欧洲"
        else if anyKeyIn europeKeysLower tL then "欧洲"
        else if anyKeyIn americasKeysZh t then "美洲"
        else if anyKeyIn americasKeysLower tL then "美洲"
        else if anyKeyIn oceaniaKeysZh t then "大洋洲"
        else if anyKeyIn oceaniaKeysLower tL then "大洋洲"
        else if anyKeyIn asiaKeysZh t then "亚洲"
        else if anyKeyIn asiaKeysLower tL then "亚洲"
        else "其他"

/-- The English region-label synonym table inside `classify_region`
(`src/generate.py:281-286`). -/
def hintSynonyms : List (String × String) :=
  [("Asia", "亚洲"), ("Asian", "亚洲"),
   ("Americas", "美洲"), ("America", "美洲"), ("North America", "美洲"),
   ("South America", "美洲"),
   ("Europe", "欧洲"), ("European", "欧洲"),
   ("Oceania", "大洋洲")]

/-- The guard `if region_cell and str(region_cell).strip():` of
`classify_region`: the stripped region cell when present and non-blank. -/
def effectiveHint (region_cell : Option String) : Option String :=
  match region_cell with
  | some rc => if isBlankL rc.data then none else some (pyStrip rc)
  | none => none

/-- `classify_region` (`src/generate.py:269-294`): static override table
(exact match of the normalized country, then substring scan in table order),
then the explicit region cell through the synonym table, then the external
`region_map` lookup (normalized country, then raw stripped country), else 其他.
The external `region_map` dict is modelled as a lookup function. -/
def classify_region (country : String) (region_cell : Option String)
    (region_map : String → Option String) : String :=
  match assocLookup COUNTRY_REGION_MAP (normalize_country_name country) with
  | some v => normalize_region v
  | none =>
    match COUNTRY_REGION_MAP.find?
        (fun kv => !kv.1.isEmpty &&
          strContains (normalize_country_name country) kv.1) with
    | some kv => normalize_region kv.2
    | none =>
      match effectiveHint region_cell with
      | some r0 =>
        normalize_region (match assocLookup hintSynonyms r0 with
          | some v => v
          | none => r0)
      | none =>
        match region_map (normalize_country_name country) with
        | some v => normalize_region v
        | none =>
          match region_map (pyStrip country) with
          | some v => normalize_region v
          | none => "其他"

/-! ### Status-cell rendering (`src/generate.py:316-346`) -/

/-- The scan behind `normNewlines`: `prevCR` records whether the previous
character was a carriage return, whose following line feed is dropped. -/
def normNewlinesAux : Bool → List Char → List Char
  | _, [] => []
  | prevCR, c :: rest =>
    if c = '\r' then '\n' :: normNewlinesAux true rest
    else if c = '\n' && prevCR then normNewlinesAux false rest
    else c :: normNewlinesAux false rest

/-- Line-ending normalization `s.replace("\r\n","\n").replace("\r","\n")`:
CRLF becomes a single LF, every remaining CR becomes LF. -/
def normNewlines (l : List Char) : List Char :=
  normNewlinesAux false l

/-- The token class `[YNＹＮ]` under `re.IGNORECASE`: ASCII and
full-width Y/N in both cases. -/
def tokenChar (c : Char) : Bool :=
  c = 'Y' || c = 'y' || c = 'N' || c = 'n' ||
  c.toNat = 0xFF39 || c.toNat = 0xFF59 || c.toNat = 0xFF2E || c.toNat = 0xFF4E

/-- Is the token a "yes" token (`ch.upper() in ("Y", "Ｙ")`)? -/
def isYesToken (c : Char) : Bool :=
  c = 'Y' || c = 'y' || c.toNat = 0xFF39 || c.toNat = 0xFF59

/-- The left-boundary class `(?<![A-Za-z0-9])` under `re.IGNORECASE`: the ASCII
alphanumerics, plus the few non-ASCII characters whose simple case mapping
lands in A–Z/a–z (ſ U+017F, İ U+0130, ı U+0131, K U+212A), which Python's
regex engine also matches case-insensitively against these ranges. -/
def blockChar (c : Char) : Bool :=
  c.isAlpha || c.isDigit ||
  c.toNat = 0x17F || c.toNat = 0x130 || c.toNat = 0x131 || c.toNat = 0x212A

/-- The full match condition of the token pattern
`(?<![A-Za-z0-9])([YNＹＮ])(?=\s|$)` at a position holding `c`, whose
predecessor is `prev` (`none` at the start of the string) and which is followed
by `rest`. -/
def statusTokenAt (prev : Option Char) (c : Char) (rest : List Char) : Bool :=
  tokenChar c &&
  (match prev with
   | none => true
   | some p => !blockChar p) &&
  (match rest with
   | [] => true
   | d :: _ => pyIsSpace d)

/-- The inline-icon markup substituted for a matched token. -/
def iconSpan (icon : String) : String :=
  "<span class=\"status\"><span class=\"ico\">" ++ icon ++ "</span></span>"

/-- The single left-to-right scan of `render_status`: each matched token is
excised and replaced by an icon fragment, all other text is HTML-escaped. -/
def scanStatus (svgYes svgNo : String) : Option Char → List Char → List Char
  | prev, c :: rest =>
    if statusTokenAt prev c rest then
      (iconSpan (if isYesToken c then svgYes else svgNo)).data ++
        scanStatus svgYes svgNo (some c) rest
    else
      escapeChar c ++ scanStatus svgYes svgNo (some c) rest
  | _, [] => []

/-- `out.replace("\n", "<br>")`. -/
def brChar (c : Char) : List Char :=
  if c = '\n' then "<br>".data else [c]

/-- `out.replace("\n", "<br>")` on a character list. -/
def brReplace (l : List Char) : List Char :=
  l.flatMap brChar

/-- `render_status` (`src/generate.py:316-346`): `None` and blank cells give
`"-"`; otherwise the scan replaces standalone Y/N tokens by icon fragments,
newlines become `<br>`, and a defensively re-checked blank result gives `"-"`. -/
def render_status (cell : Option String) (svgYes svgNo : String) : String :=
  match cell with
  | none => "-"
  | some raw =>
    if isBlankL (normNewlines raw.data) then "-"
    else if isBlankL (brReplace
        (scanStatus svgYes svgNo none (normNewlines raw.data))) then "-"
    else String.mk (brReplace (scanStatus svgYes svgNo none (normNewlines raw.data)))

/-! ### Link rendering (`src/generate.py:349-380`) -/

/-- The WHATWG pre-processing inside `urllib.parse.urlsplit`: strip C0 controls
and spaces from both ends, then remove every tab, CR and LF. -/
def urlPreprocess (l : List Char) : List Char :=
  (((l.dropWhile (fun c => c.toNat ≤ 0x20)).reverse.dropWhile
      (fun c => c.toNat ≤ 0x20)).reverse).filter
    (fun c => !(c = '\t' || c = '\n' || c = '\r'))

/-- May `c` appear in a URL scheme (`scheme_chars`)? -/
def isSchemeChar (c : Char) : Bool :=
  c.isAlpha || c.isDigit || c = '+' || c = '-' || c = '.'

/-- Split off a `scheme:` head as `urlsplit` does: the part before the first
colon must be non-empty, start with an ASCII letter and consist of scheme
characters; the result is the remainder after the colon, else the whole list. -/
def dropScheme (l : List Char) : List Char :=
  let before := l.takeWhile (fun c => c ≠ ':')
  if before.length < l.length then
    match before with
    | [] => l
    | c :: _ =>
      if c.isAlpha && before.all isSchemeChar then l.drop (before.length + 1)
      else l
  else l

/-- The netloc slice of `urlsplit`: after `//`, up to the next `/`, `?` or `#`.
Returns `none` when the bracket sanity check raises `ValueError`
(`[` and `]` unbalanced in the netloc), modelling the `except` path of
`derive_host`; Python 3.11 additionally raises on malformed bracketed hosts,
which only switches to the fallback branch and does not affect the properties
proved here. -/
def netlocOf (s : String) : Option String :=
  match dropScheme (urlPreprocess s.data) with
  | '/' :: '/' :: r =>
    if ((r.takeWhile (fun c => c ≠ '/' && c ≠ '?' && c ≠ '#')).contains '[' &&
        !(r.takeWhile (fun c => c ≠ '/' && c ≠ '?' && c ≠ '#')).contains ']') ||
       ((r.takeWhile (fun c => c ≠ '/' && c ≠ '?' && c ≠ '#')).contains ']' &&
        !(r.takeWhile (fun c => c ≠ '/' && c ≠ '?' && c ≠ '#')).contains '[')
    then none
    else some (String.mk (r.takeWhile (fun c => c ≠ '/' && c ≠ '?' && c ≠ '#')))
  | _ => some ""

/-- The scan behind `afterDoubleSlash`: the part after the first `//`, if the
string contains one. -/
def afterDoubleSlashAux : List Char → Option (List Char)
  | '/' :: '/' :: rest => some rest
  | _ :: rest => afterDoubleSlashAux rest
  | [] => none

/-- `raw.split("//", 1)[-1]`: the part after the first `//` when there is one,
and the whole string when there is none (a one-element split). -/
def afterDoubleSlash (l : List Char) : List Char :=
  match afterDoubleSlashAux l with
  | some rest => rest
  | none => l

/-- `raw2.split("/", 1)[0]`. -/
def upToSlash (l : List Char) : List Char :=
  l.takeWhile (fun c => c ≠ '/')

/-- The naive fallback of `derive_host`, also used on a parse exception. -/
def hostFallback (raw : String) : String :=
  String.mk (upToSlash (afterDoubleSlash raw.data))

/-- `derive_host` inside `render_link` (`src/generate.py:364-376`): the parsed
netloc, retried with a `https://` scheme prepended, else the naive fallback. -/
def derive_host (raw : String) : String :=
  match netlocOf raw with
  | none => hostFallback raw
  | some h =>
    if h ≠ "" then h
    else
      match netlocOf ("https://" ++ raw) with
      | none => hostFallback raw
      | some h2 => if h2 ≠ "" then h2 else hostFallback raw

/-- Index of the first `|`, if any. -/
def hasPipe (s : String) : Bool :=
  s.data.contains '|'

/-- `u.split("|", 1)[0]`. -/
def beforePipe (s : String) : String :=
  String.mk (s.data.takeWhile (fun c => c ≠ '|'))

/-- `u.split("|", 1)[1]` (everything after the first `|`). -/
def afterPipe (s : String) : String :=
  String.mk ((s.data.dropWhile (fun c => c ≠ '|')).drop 1)

/-- The visible label text chosen by `render_link` for the already-stripped
cell `u`: the stripped text after the first pipe when present and non-blank,
else the host derived from the URL part. -/
def linkLabelTxt (u : String) : String :=
  if hasPipe u then
    let title := pyStrip (afterPipe u)
    if title ≠ "" then title else derive_host (pyStrip (beforePipe u))
  else derive_host u

/-- The href chosen by `render_link`: the part before the first pipe when
present (stripped), else the whole cell, attribute-escaped. -/
def linkHref (u : String) : String :=
  if hasPipe u then escapeAttr (pyStrip (beforePipe u)) else escapeAttr u

/-- `render_link` (`src/generate.py:349-380`): `None`/blank cells give `"-"`;
otherwise an anchor with the attribute-escaped URL, external icon and the
escaped label, assembled as `f"{svg_external} {escape(label_txt)}".strip()`. -/
def render_link (url : Option String) (svgExternal : String) : String :=
  let u := pyStrip (match url with | none => "" | some s => s)
  if u = "" then "-"
  else
    let label := String.mk (pyStripL
      (svgExternal ++ " " ++ escape (some (linkLabelTxt u))).data)
    "<a href=\"" ++ linkHref u ++ "\" target=\"_blank\" rel=\"noopener\">" ++
      label ++ "</a>"

/-! ### Grouping (`src/generate.py:831-899`, `build_body_compliance`) -/

/-- One spreadsheet row as assembled by `sheet_rows_compliance`
(`src/generate.py:775-802`): the stripped country, the optional Region cell and
the four status cells with their link cells. -/
structure Row where
  country : String
  region : Option String
  food : Option String
  fLink : Option String
  supp : Option String
  sLink : Option String
  drug : Option String
  dLink : Option String
  feed : Option String
  feLink : Option String
deriving DecidableEq

/-- The comparison used by `grouped[reg].sort(key=lambda x: x["country"])`:
plain code-point-lexicographic order on the country string. -/
def rowLe (a b : Row) : Prop :=
  a.country ≤ b.country

instance : DecidableRel rowLe :=
  fun a b => inferInstanceAs (Decidable (a.country ≤ b.country))

instance : IsTotal Row rowLe := ⟨fun a b => le_total a.country b.country⟩

instance : IsTrans Row rowLe := ⟨fun _ _ _ h h' => le_trans h h'⟩

/-- `grouped.setdefault(region, []).append(r)`: append `r` to the entry of
`key` (first occurrence), creating the entry at the end when missing. -/
def addToGroup : List (String × List Row) → String → Row → List (String × List Row)
  | [], key, r => [(key, [r])]
  | (k, l) :: rest, key, r =>
    if k = key then (k, l ++ [r]) :: rest else (k, l) :: addToGroup rest key r

/-- The grouping loop of `build_body_compliance` (`src/generate.py:834-837`):
a dict seeded with an empty list per canonical region, filled row by row. -/
def gather (rows : List Row) (region_map : String → Option String) :
    List (String × List Row) :=
  rows.foldl
    (fun m r => addToGroup m (classify_region r.country r.region region_map) r)
    (REGION_ORDER.map (fun k => (k, [])))

/-- `grouped.get(reg, [])`. -/
def lookupGroup (m : List (String × List Row)) (k : String) : List Row :=
  match m.find? (fun p => p.1 == k) with
  | some p => p.2
  | none => []

/-- The emission skeleton of `build_body_compliance`
(`src/generate.py:839-847`): sort each bucket by country (Python's stable sort,
modelled by the stable `insertionSort`), then walk `REGION_ORDER`, skipping
regions with no records.  The resulting list is the sequence of
(region, records) sections in body order. -/
def build_groups_compliance (rows : List Row)
    (region_map : String → Option String) : List (String × List Row) :=
  REGION_ORDER.filterMap (fun reg =>
    let items := List.insertionSort rowLe (lookupGroup (gather rows region_map) reg)
    if items.isEmpty then none else some (reg, items))

/-- A demo record whose country matches nothing and carries no hint. -/
def zedlandRow : Row :=
  ⟨"Zedland", none, none, none, none, none, none, none, none, none⟩

/-- A demo record with an explicit `Region` hint. -/
def austriaRow : Row :=
  ⟨"Austria", some "Europe", none, none, none, none, none, none, none, none⟩

/-! ### Theorems -/

/-- `startsWithSeq` holds of every list against itself. -/
theorem startsWithSeq_self (l : List Char) : startsWithSeq l l = true := by
  induction l with
  | nil => rfl
  | cons a t ih => simp [startsWithSeq, ih]

/-- Substring containment is reflexive, as Python's `s in s`. -/
theorem strContains_self (s : String) : strContains s s = true := by
  unfold strContains
  cases h : s.data with
  | nil => rfl
  | cons a t =>
    unfold containsSub
    rw [startsWithSeq_self]
    rfl

/-- Every value of the override table is already canonical, so
`normalize_region` fixes it. -/
theorem country_region_values_normalized :
    ∀ kv ∈ COUNTRY_REGION_MAP, normalize_region kv.2 = kv.2 := by decide

/-- Association lookup success yields a table entry with the looked-up key. -/
theorem assocLookup_eq_some {m : List (String × String)} {k v : String}
    (h : assocLookup m k = some v) : ∃ kv ∈ m, kv.1 = k ∧ kv.2 = v := by
  unfold assocLookup at h
  rcases hf : m.find? (fun kv => kv.1 == k) with _ | kv
  · simp only [hf] at h
    simp at h
  · simp only [hf] at h
    cases h
    have hb := List.find?_some hf
    simp only [] at hb
    exact ⟨kv, List.mem_of_find?_eq_some hf, eq_of_beq hb, rfl⟩

/-- `normalize_region` always lands in the closed set of five regions. -/
theorem normalize_region_mem (r : String) : normalize_region r ∈ REGION_ORDER := by
  unfold normalize_region REGION_ORDER
  split_ifs with h1 h2 h3 h4 h5 <;> simp_all
  tauto

/-- Claim C4: for every input triple, `classify_region` is total (a Lean
function) and returns one of exactly the five canonical regions
亚洲/美洲/欧洲/大洋洲/其他; 其他 is the fall-through default, so no input is
rejected. -/
theorem claim_C4 (country : String) (region_cell : Option String)
    (region_map : String → Option String) :
    classify_region country region_cell region_map ∈ REGION_ORDER := by
  unfold classify_region
  repeat' split
  all_goals first
    | exact normalize_region_mem _
    | decide

/-- Claim C1 (code bug): with no override match, no hint and an empty lookup
table, `classify_region` resolves `"France"` to 其他, although the module
docstring promises "inference from country text/flag" as the final priority and
the repository's own `infer_region` — which `classify_region` never calls —
resolves `"France"` to 欧洲. -/
theorem claim_C1 :
    classify_region "France" none (fun _ => none) = "其他" ∧
    infer_region "France" = "欧洲" :=
  ⟨by decide, by decide⟩

/-- Claim C2, counterexample: the lowercase label `"usp"` contains `"USP"`
case-insensitively, yet with an `"Asia"` hint `classify_region` returns 亚洲,
not 其他 — the case-insensitive USP rule lives only in the never-called
`infer_region`. -/
theorem claim_C2_counterexample :
    classify_region "usp" (some "Asia") (fun _ => none) = "亚洲" ∧
    strContains (pyUpper "usp") "USP" = true ∧
    ("亚洲" : String) ≠ "其他" :=
  ⟨by decide, by decide, by decide⟩

/-- Claim C2, amended: a country whose normalized label contains `"USP"` in
exact upper case resolves to 其他 regardless of hint and lookup table, provided
every override-table key occurring in the normalized label maps to 其他 (the
substring scan returns the first matching key in table order); labels
containing `usp` only in other letter cases receive no special treatment. -/
theorem claim_C2 (country : String) (region_cell : Option String)
    (region_map : String → Option String)
    (h1 : strContains (normalize_country_name country) "USP" = true)
    (h2 : ∀ kv ∈ COUNTRY_REGION_MAP,
      strContains (normalize_country_name country) kv.1 = true → kv.2 = "其他") :
    classify_region country region_cell region_map = "其他" := by
  rcases hex : assocLookup COUNTRY_REGION_MAP (normalize_country_name country)
      with _ | v
  · rcases hsub : COUNTRY_REGION_MAP.find?
        (fun kv => !kv.1.isEmpty &&
          strContains (normalize_country_name country) kv.1) with _ | kv
    · exfalso
      rw [List.find?_eq_none] at hsub
      have husp := hsub ("USP", "其他") (by decide)
      simp only [Bool.and_eq_true] at husp
      exact husp ⟨by decide, h1⟩
    · have hp := List.find?_some hsub
      rw [Bool.and_eq_true] at hp
      have hmem := List.mem_of_find?_eq_some hsub
      have hv : kv.2 = "其他" := h2 kv hmem hp.2
      simp only [classify_region, hex, hsub]
      rw [hv]
      decide
  · obtain ⟨kv, hmem, hk, hv⟩ := assocLookup_eq_some hex
    have hUSP : kv.2 = "其他" := by
      apply h2 kv hmem
      rw [hk]
      exact strContains_self _
    simp only [classify_region, hex]
    rw [← hv, hUSP]
    decide

/-- Witness for the amended claim C2 at the concrete label `"USP"` with a
conflicting hint and a conflicting lookup table. -/
theorem claim_C2_witness :
    strContains (normalize_country_name "USP") "USP" = true ∧
    classify_region "USP" (some "Asia") (fun _ => some "美洲") = "其他" :=
  ⟨by decide, claim_C2 "USP" (some "Asia") (fun _ => some "美洲") (by decide) (by decide)⟩

/-- Claim C3: when the normalized country is an exact key of the override
table, `classify_region` returns that entry's region, ignoring the region cell
and the lookup table — the override step runs first and no later step runs. -/
theorem claim_C3 (country : String) (region_cell : Option String)
    (region_map : String → Option String) (v : String)
    (h : assocLookup COUNTRY_REGION_MAP (normalize_country_name country) = some v) :
    classify_region country region_cell region_map = v := by
  obtain ⟨kv, hmem, _, hv⟩ := assocLookup_eq_some h
  simp only [classify_region, h]
  rw [← hv]
  exact country_region_values_normalized kv hmem

/-- Witness for claim C3: `"Turkey"` is an override key mapped to 欧洲, and the
conflicting hint `"Asia"` and conflicting lookup entry 亚洲 are both ignored. -/
theorem claim_C3_witness :
    assocLookup COUNTRY_REGION_MAP (normalize_country_name "Turkey") = some "欧洲" ∧
    classify_region "Turkey" (some "Asia")
      (fun s => if s = "Turkey" then some "亚洲" else none) = "欧洲" :=
  ⟨by decide,
   claim_C3 "Turkey" (some "Asia") (fun s => if s = "Turkey" then some "亚洲" else none)
     "欧洲" (by decide)⟩

/-- Claim C9: absent, empty and whitespace-only cells render as the literal
`"-"` in both the status renderer and the link renderer. -/
theorem claim_C9 (svgYes svgNo svgExternal : String) :
    render_status none svgYes svgNo = "-" ∧
    render_status (some "") svgYes svgNo = "-" ∧
    render_status (some "   ") svgYes svgNo = "-" ∧
    render_link none svgExternal = "-" ∧
    render_link (some "") svgExternal = "-" ∧
    render_link (some "   ") svgExternal = "-" :=
  ⟨rfl, rfl, rfl, rfl, rfl, rfl⟩

/-- Stripping only removes characters. -/
theorem mem_of_mem_pyStripL {c : Char} {l : List Char} (h : c ∈ pyStripL l) :
    c ∈ l := by
  unfold pyStripL at h
  rw [List.mem_reverse] at h
  have h2 := List.Sublist.mem h (List.dropWhile_sublist _)
  rw [List.mem_reverse] at h2
  exact List.Sublist.mem h2 (List.dropWhile_sublist _)

/-- The flag-pair removal only removes characters: every output character is
the pending character or one of the input. -/
theorem mem_of_mem_removeFlagPairsAux {c : Char} :
    ∀ (p : Option Char) (l : List Char), c ∈ removeFlagPairsAux p l →
      p = some c ∨ c ∈ l := by
  intro p l
  induction l generalizing p with
  | nil =>
    intro h
    cases p with
    | none => simp [removeFlagPairsAux] at h
    | some x =>
      simp [removeFlagPairsAux] at h
      left
      rw [h]
  | cons a rest ih =>
    intro h
    cases p with
    | none =>
      simp only [removeFlagPairsAux] at h
      split_ifs at h with hri
      · rcases ih (some a) h with h1 | h1
        · right
          simp at h1
          simp [h1]
        · right
          exact List.mem_cons_of_mem _ h1
      · rw [List.mem_cons] at h
        rcases h with h1 | h1
        · right
          simp [h1]
        · rcases ih none h1 with h2 | h2
          · simp at h2
          · right
            exact List.mem_cons_of_mem _ h2
    | some x =>
      simp only [removeFlagPairsAux] at h
      split_ifs at h with hri
      · rcases ih none h with h1 | h1
        · simp at h1
        · right
          exact List.mem_cons_of_mem _ h1
      · rw [List.mem_cons] at h
        rcases h with h1 | h1
        · left
          rw [h1]
        · rw [List.mem_cons] at h1
          rcases h1 with h2 | h2
          · right
            simp [h2]
          · rcases ih none h2 with h3 | h3
            · simp at h3
            · right
              exact List.mem_cons_of_mem _ h3

/-- Claim C10: `normalize_country_name` deletes every character above U+FFFF —
no supplementary-plane character survives into the normalized form (so none
can take part in override matching), and a label made solely of
supplementary-plane characters normalizes to the empty string. -/
theorem claim_C10 :
    (∀ name : String, ∀ c ∈ (normalize_country_name name).data,
      c.toNat < 0x10000) ∧
    (∀ name : String, (∀ c ∈ name.data, 0x10000 ≤ c.toNat) →
      normalize_country_name name = "") := by
  constructor
  · intro name c hc
    unfold normalize_country_name at hc
    have h1 := mem_of_mem_pyStripL hc
    have h2 := List.Sublist.mem h1 (List.dropWhile_sublist _)
    have h3 := mem_of_mem_pyStripL h2
    have h4 := (List.mem_filter.mp h3).2
    simpa using h4
  · intro name h
    have hfil : (removeFlagPairs (pyStripL name.data)).filter
        (fun c => decide (c.toNat < 0x10000)) = [] := by
      rw [List.filter_eq_nil_iff]
      intro a ha
      rcases mem_of_mem_removeFlagPairsAux none _ ha with h1 | h1
      · simp at h1
      · have := h a (mem_of_mem_pyStripL h1)
        simp
        omega
    simp only [normalize_country_name, hfil]
    rfl

/-- Claim C5: the status renderer's scan never replaces a character directly
preceded by an ASCII letter or digit — the left-boundary test fails, so the
character is emitted as escaped literal text; in particular the cell `"YES"`
renders with zero icon substitutions. -/
theorem claim_C5 :
    (∀ (svgYes svgNo : String) (p c : Char) (rest : List Char),
      (p.isAlpha || p.isDigit) = true →
      scanStatus svgYes svgNo (some p) (c :: rest) =
        escapeChar c ++ scanStatus svgYes svgNo (some c) rest) ∧
    (∀ svgYes svgNo : String, render_status (some "YES") svgYes svgNo = "YES") := by
  constructor
  · intro svgYes svgNo p c rest hp
    have hb : blockChar p = true := by
      rw [Bool.or_eq_true] at hp
      rcases hp with h | h
      · simp [blockChar, h]
      · simp [blockChar, h]
    have ht : statusTokenAt (some p) c rest = false := by
      simp [statusTokenAt, hb]
    have hred : scanStatus svgYes svgNo (some p) (c :: rest) =
        (if statusTokenAt (some p) c rest then
          (iconSpan (if isYesToken c then svgYes else svgNo)).data ++
            scanStatus svgYes svgNo (some c) rest
        else escapeChar c ++ scanStatus svgYes svgNo (some c) rest) := rfl
    rw [hred, ht]
    simp
  · intro svgYes svgNo
    rfl

/-- Witness for claim C5 at the concrete cell `"YES"`: the `E` before the final
`S`-free `Y`-like position blocks, and the whole cell renders unchanged. -/
theorem claim_C5_witness :
    (('E'.isAlpha || 'E'.isDigit) = true ∧
      scanStatus "A" "B" (some 'E') ('Y' :: []) =
        escapeChar 'Y' ++ scanStatus "A" "B" (some 'Y') []) ∧
    render_status (some "YES") "A" "B" = "YES" :=
  ⟨⟨by decide, claim_C5.1 "A" "B" 'E' 'Y' [] (by decide)⟩, claim_C5.2 "A" "B"⟩

/-- A successful netloc parse never contains a slash. -/
theorem netlocOf_no_slash {s : String} {h : String} (hp : netlocOf s = some h) :
    '/' ∉ h.data := by
  unfold netlocOf at hp
  split at hp
  · split_ifs at hp with hbr
    cases hp
    intro hc
    have := List.mem_takeWhile_imp hc
    simp_all
  · cases hp
    intro hc
    cases hc

/-- The naive fallback never contains a slash. -/
theorem hostFallback_no_slash (raw : String) : '/' ∉ (hostFallback raw).data := by
  intro hc
  unfold hostFallback upToSlash at hc
  have := List.mem_takeWhile_imp hc
  simp_all

/-- `derive_host` never returns a string containing a slash. -/
theorem derive_host_no_slash (raw : String) : '/' ∉ (derive_host raw).data := by
  unfold derive_host
  split
  · exact hostFallback_no_slash raw
  next h hp =>
    split_ifs with h1
    · exact netlocOf_no_slash hp
    · split
      · exact hostFallback_no_slash raw
      next h2 hp2 =>
        split_ifs with h3
        · exact netlocOf_no_slash hp2
        · exact hostFallback_no_slash raw

/-- Claim C8, counterexample: the cell `"https://x.org/p |"` contains a pipe
whose following text is blank, yet the rendered label is the derived host
`x.org`, not that (empty) text — refuting "the label is exactly the text after
the first pipe" as universally stated. -/
theorem claim_C8_counterexample :
    render_link (some "https://x.org/p |") "" =
      "<a href=\"https://x.org/p\" target=\"_blank\" rel=\"noopener\">x.org</a>" ∧
    pyStrip (afterPipe (pyStrip "https://x.org/p |")) = "" ∧
    ("x.org" : String) ≠ "" :=
  ⟨by decide, by decide, by decide⟩

/-- Claim C8, amended: with a pipe and a non-blank trimmed text after it, the
label is exactly that trimmed text (used verbatim, escaped in the anchor);
with a pipe but blank text after it the label falls back to the derived host;
without a pipe the label is the host derived from the URL, retried with a
default scheme for scheme-less URLs (so `example.com/a/b` labels as
`example.com`), and a derived host never contains a slash — never a path. -/
theorem claim_C8 :
    (∀ u : String, hasPipe u = true → pyStrip (afterPipe u) ≠ "" →
      linkLabelTxt u = pyStrip (afterPipe u)) ∧
    render_link (some "https://x.org/p | My Title") "E" =
      "<a href=\"https://x.org/p\" target=\"_blank\" rel=\"noopener\">E My Title</a>" ∧
    linkLabelTxt "example.com/a/b" = "example.com" ∧
    (∀ raw : String, '/' ∉ (derive_host raw).data) := by
  refine ⟨?_, by decide, by decide, derive_host_no_slash⟩
  intro u h1 h2
  unfold linkLabelTxt
  rw [h1]
  simp [h2]

/-- Witness for the amended claim C8 on a concrete piped cell. -/
theorem claim_C8_witness :
    hasPipe "a | b" = true ∧ pyStrip (afterPipe "a | b") ≠ "" ∧
    linkLabelTxt "a | b" = pyStrip (afterPipe "a | b") :=
  ⟨by decide, by decide, claim_C8.1 "a | b" (by decide) (by decide)⟩

/-- `brReplace` distributes over append. -/
theorem brReplace_append (a b : List Char) :
    brReplace (a ++ b) = brReplace a ++ brReplace b :=
  List.flatMap_append a b brChar

/-- `brReplace` fixes newline-free text. -/
theorem brReplace_no_newline {l : List Char} (h : '\n' ∉ l) : brReplace l = l := by
  induction l with
  | nil => rfl
  | cons a t ih =>
    have ha : a ≠ '\n' := by
      intro he
      exact h (he ▸ List.mem_cons_self a t)
    have ht : '\n' ∉ t := fun hm => h (List.mem_cons_of_mem a hm)
    have h2 := ih ht
    simp only [brReplace] at h2 ⊢
    simp [List.flatMap_cons, brChar, ha, h2]

/-- `brReplace` fixes a newline-free icon fragment. -/
theorem brReplace_iconSpan {s : String} (hs : '\n' ∉ s.data) :
    brReplace (iconSpan s).data = (iconSpan s).data := by
  have h1 : (iconSpan s).data =
      ("<span class=\"status\"><span class=\"ico\">".data ++ s.data) ++
        "</span></span>".data := rfl
  rw [h1, brReplace_append, brReplace_append, brReplace_no_newline hs]
  rfl

/-- Claim C6: the single cell `"Y approved\nN restricted"` renders, in one
call, as exactly one yes-icon fragment, the literal text ` approved`, one
`<br>` line-break marker, one no-icon fragment and the literal text
` restricted` — two icon substitutions, one explicit break, surrounding words
preserved verbatim (for icon markup not itself containing a newline). -/
theorem claim_C6 (svgYes svgNo : String)
    (hy : '\n' ∉ svgYes.data) (hn : '\n' ∉ svgNo.data) :
    render_status (some "Y approved\nN restricted") svgYes svgNo =
      iconSpan svgYes ++ " approved<br>" ++ iconSpan svgNo ++ " restricted" := by
  have hscan : scanStatus svgYes svgNo none ("Y approved\nN restricted".data) =
      (iconSpan svgYes).data ++ (" approved\n".data ++
        ((iconSpan svgNo).data ++ " restricted".data)) := rfl
  have hout : brReplace
      (scanStatus svgYes svgNo none (normNewlines ("Y approved\nN restricted".data))) =
      (iconSpan svgYes).data ++ (" approved<br>".data ++
        ((iconSpan svgNo).data ++ " restricted".data)) := by
    rw [show normNewlines ("Y approved\nN restricted".data) =
        "Y approved\nN restricted".data from rfl]
    rw [hscan, brReplace_append, brReplace_append, brReplace_append,
      brReplace_iconSpan hy, brReplace_iconSpan hn]
    rfl
  have hblank : isBlankL ((iconSpan svgYes).data ++ (" approved<br>".data ++
      ((iconSpan svgNo).data ++ " restricted".data))) = false := rfl
  have hb1 : isBlankL (normNewlines ("Y approved\nN restricted".data)) = false := rfl
  simp only [render_status, hout, hblank, hb1, Bool.false_eq_true, if_false]
  show String.mk ((iconSpan svgYes).data ++ (" approved<br>".data ++
      ((iconSpan svgNo).data ++ " restricted".data))) =
    String.mk ((((iconSpan svgYes).data ++ " approved<br>".data) ++
      (iconSpan svgNo).data) ++ " restricted".data)
  exact congrArg String.mk (by simp [List.append_assoc])

/-- Witness for claim C6 with concrete newline-free icon fragments. -/
theorem claim_C6_witness :
    ('\n' ∉ ("IY" : String).data) ∧ ('\n' ∉ ("IN" : String).data) ∧
    render_status (some "Y approved\nN restricted") "IY" "IN" =
      iconSpan "IY" ++ " approved<br>" ++ iconSpan "IN" ++ " restricted" :=
  ⟨by decide, by decide, claim_C6 "IY" "IN" (by decide) (by decide)⟩

/-- Witness for claim C10: an ASCII character survives normalization below
U+10000, and a label of two supplementary-plane characters normalizes to the
empty string. -/
theorem claim_C10_witness :
    ('a'.toNat < 0x10000) ∧
    (∀ c ∈ ("😀🀄" : String).data, 0x10000 ≤ c.toNat) ∧
    normalize_country_name "😀🀄" = "" :=
  ⟨claim_C10.1 "a😀" 'a' (by decide), by decide, claim_C10.2 "😀🀄" (by decide)⟩

/-- Reading a bucket after a cons of the group association list. -/
theorem lookupGroup_cons (k : String) (l : List Row)
    (rest : List (String × List Row)) (reg : String) :
    lookupGroup ((k, l) :: rest) reg = if k = reg then l else lookupGroup rest reg := by
  unfold lookupGroup
  by_cases h : k = reg
  · rw [List.find?_cons_of_pos _ (by simp [h])]
    simp [h]
  · rw [List.find?_cons_of_neg _ (by simp [h])]
    simp [h]

/-- Appending a row to a bucket changes exactly that bucket's contents. -/
theorem lookupGroup_addToGroup (m : List (String × List Row)) (key : String)
    (r : Row) (reg : String) :
    lookupGroup (addToGroup m key r) reg =
      if key = reg then lookupGroup m reg ++ [r] else lookupGroup m reg := by
  induction m with
  | nil =>
    by_cases hk : key = reg
    · simp [addToGroup, lookupGroup_cons, lookupGroup, hk]
    · simp [addToGroup, lookupGroup_cons, lookupGroup, hk]
  | cons p rest ih =>
    obtain ⟨k, l⟩ := p
    unfold addToGroup
    by_cases hk : k = key
    · subst hk
      rw [if_pos rfl, lookupGroup_cons, lookupGroup_cons]
      by_cases hr : k = reg
      · simp [hr]
      · simp [hr]
    · rw [if_neg hk, lookupGroup_cons, lookupGroup_cons, ih]
      by_cases hr : k = reg
      · have : key ≠ reg := fun he => hk (he ▸ hr.symm ▸ rfl)
        simp [hr, this]
      · simp [hr]

/-- The grouping fold appends, bucket-wise, exactly the rows classified into
each region, in input order. -/
theorem lookupGroup_foldl (region_map : String → Option String) :
    ∀ (rows : List Row) (m : List (String × List Row)) (reg : String),
      lookupGroup (rows.foldl
          (fun m r => addToGroup m (classify_region r.country r.region region_map) r)
          m) reg =
        lookupGroup m reg ++
          rows.filter (fun r => classify_region r.country r.region region_map == reg) := by
  intro rows
  induction rows with
  | nil =>
    intro m reg
    simp
  | cons r rest ih =>
    intro m reg
    rw [List.foldl_cons, ih, lookupGroup_addToGroup, List.filter_cons]
    by_cases h : classify_region r.country r.region region_map = reg
    · simp [h]
    · simp [h]

/-- The seeded dict holds an empty bucket under every key. -/
theorem lookupGroup_seed (ks : List String) (reg : String) :
    lookupGroup (ks.map (fun k => (k, ([] : List Row)))) reg = [] := by
  induction ks with
  | nil => rfl
  | cons k ks ih =>
    rw [List.map_cons, lookupGroup_cons]
    split_ifs <;> simp [ih]

/-- Each bucket of `gather` holds exactly the rows classified to its region,
in input order. -/
theorem gather_lookup (rows : List Row) (region_map : String → Option String)
    (reg : String) :
    lookupGroup (gather rows region_map) reg =
      rows.filter (fun r => classify_region r.country r.region region_map == reg) := by
  unfold gather
  rw [lookupGroup_foldl, lookupGroup_seed]
  rfl

/-- Stability of `orderedInsert` seen through the equal-key filter: inserting
into a sorted list places the new row before every row of the same country. -/
theorem orderedInsert_filter_key (c : String) (x : Row) :
    ∀ L : List Row, L.Sorted rowLe →
      (L.orderedInsert rowLe x).filter (fun r => r.country == c) =
        if x.country == c then x :: L.filter (fun r => r.country == c)
        else L.filter (fun r => r.country == c) := by
  intro L
  induction L with
  | nil =>
    intro _
    simp only [List.orderedInsert, List.filter_cons, List.filter_nil]
  | cons b L ih =>
    intro hs
    have hsL : L.Sorted rowLe := (List.sorted_cons.mp hs).2
    unfold List.orderedInsert
    by_cases hxb : rowLe x b
    · rw [if_pos hxb, List.filter_cons]
    · rw [if_neg hxb, List.filter_cons, ih hsL]
      have hlt : b.country < x.country := not_le.mp hxb
      by_cases hx : x.country = c
      · have hb : (b.country == c) = false := by
          have : b.country ≠ c := hx ▸ ne_of_lt hlt
          simp [this]
        simp [hx, hb, List.filter_cons]
      · have hpx : (x.country == c) = false := by simp [hx]
        simp [hpx, List.filter_cons]

/-- Stability of insertion sort seen through the equal-key filter: rows with a
given country keep their input relative order. -/
theorem insertionSort_filter_key (c : String) :
    ∀ l : List Row,
      (List.insertionSort rowLe l).filter (fun r => r.country == c) =
        l.filter (fun r => r.country == c) := by
  intro l
  induction l with
  | nil => rfl
  | cons x l ih =>
    rw [List.insertionSort,
      orderedInsert_filter_key c x _ (List.sorted_insertionSort rowLe l), ih,
      List.filter_cons]

/-- The region names of a filterMap whose results carry their source key form
a sublist of the key list. -/
theorem filterMap_fst_sublist {β : Type} (f : String → Option (String × β))
    (l : List String) (hf : ∀ a p, f a = some p → p.1 = a) :
    ((l.filterMap f).map Prod.fst).Sublist l := by
  induction l with
  | nil => simp
  | cons a l ih =>
    cases hfa : f a with
    | none =>
      rw [List.filterMap_cons, hfa]
      exact ih.trans (List.sublist_cons_self a l)
    | some p =>
      rw [List.filterMap_cons, hfa, List.map_cons, hf a p hfa]
      exact ih.cons₂ a

/-- Claim C7: the body's region groups are emitted by walking the fixed order
亚洲, 美洲, 欧洲, 大洋洲, 其他 and dropping empty regions (so the emitted
region names form a sublist of that order and no empty section is produced),
and each emitted group holds exactly its region's rows sorted by country under
plain lexicographic comparison, with rows of equal country preserving their
input relative order (the stable-sort guarantee, stated through the equal-key
filter). -/
theorem claim_C7 (rows : List Row) (region_map : String → Option String) :
    build_groups_compliance rows region_map =
      REGION_ORDER.filterMap (fun reg =>
        let items := List.insertionSort rowLe (rows.filter
          (fun r => classify_region r.country r.region region_map == reg))
        if items.isEmpty then none else some (reg, items)) ∧
    ((build_groups_compliance rows region_map).map Prod.fst).Sublist REGION_ORDER ∧
    (∀ p ∈ build_groups_compliance rows region_map, List.Sorted rowLe p.2) ∧
    (∀ p ∈ build_groups_compliance rows region_map, ∀ c : String,
      p.2.filter (fun r => r.country == c) =
        rows.filter (fun r => r.country == c &&
          classify_region r.country r.region region_map == p.1)) := by
  have h1 : build_groups_compliance rows region_map =
      REGION_ORDER.filterMap (fun reg =>
        let items := List.insertionSort rowLe (rows.filter
          (fun r => classify_region r.country r.region region_map == reg))
        if items.isEmpty then none else some (reg, items)) := by
    unfold build_groups_compliance
    simp only [gather_lookup]
  have hextract : ∀ p ∈ build_groups_compliance rows region_map,
      p.2 = List.insertionSort rowLe (rows.filter
        (fun r => classify_region r.country r.region region_map == p.1)) := by
    intro p hp
    rw [h1, List.mem_filterMap] at hp
    obtain ⟨reg, _, hf⟩ := hp
    dsimp only at hf
    split_ifs at hf
    cases hf
    rfl
  refine ⟨h1, ?_, ?_, ?_⟩
  · apply filterMap_fst_sublist
    intro a p hp
    dsimp only [build_groups_compliance] at hp
    split_ifs at hp
    cases hp
    rfl
  · intro p hp
    rw [hextract p hp]
    exact List.sorted_insertionSort rowLe _
  · intro p hp c
    rw [hextract p hp, insertionSort_filter_key, List.filter_filter]

/-- Witness for claim C7: one record classified 欧洲 by its hint and one
classified 其他; the 欧洲 group is emitted (before 其他), is sorted, and its
equal-key filters agree with the input order. -/
theorem claim_C7_witness :
    (("欧洲", [austriaRow]) ∈
      build_groups_compliance [zedlandRow, austriaRow] (fun _ => none)) ∧
    List.Sorted rowLe (("欧洲", [austriaRow]) : String × List Row).2 ∧
    (("欧洲", [austriaRow]) : String × List Row).2.filter
        (fun r => r.country == "Austria") =
      [zedlandRow, austriaRow].filter (fun r => r.country == "Austria" &&
        classify_region r.country r.region (fun _ => none) ==
          (("欧洲", [austriaRow]) : String × List Row).1) := by
  have hm : (("欧洲", [austriaRow]) ∈
      build_groups_compliance [zedlandRow, austriaRow] (fun _ => none)) := by decide
  exact ⟨hm,
    (claim_C7 [zedlandRow, austriaRow] (fun _ => none)).2.2.1 _ hm,
    (claim_C7 [zedlandRow, austriaRow] (fun _ => none)).2.2.2 _ hm "Austria"⟩

end Wecompliance
